import Mathlib

/-!
Verification of the granular-rbac core against its specification.

The embedding follows `src/packages/core/src/types.ts`,
`src/packages/core/src/permission-engine.ts` and
`src/packages/core/src/services/role-service.ts`.

Conventions of the shallow embedding:
* TypeScript string-literal union `'superadmin' | 'admin' | 'user'` becomes the
  closed inductive `UserType` (the union has exactly these three values, so the
  string comparisons `user.userType === '...'` become decidable equality).
* The dynamic tenant field (`user[config.tenant.field]`) is an association list
  `fields : List (String × Nat)`; a missing key is JavaScript `undefined`,
  modelled by `Option`.
* Optional JS values (`tenantId?: number`, `user.permissions` possibly
  undefined) are `Option`; JS falsiness of an optional number (`!tenantId`)
  holds for `none` (undefined) and `some 0`.
* `async` methods have no actual concurrency: they are sequential code over
  awaited results, so they embed as plain functions.
* `throw new Error(msg)` becomes `Except.error msg`; stateful service methods
  take and return an explicit `Store`, and an `Except.error` result returns no
  store, i.e. leaves the caller's store unchanged.
-/

inductive UserType where
  | superadmin
  | admin
  | user
deriving DecidableEq, Repr

/-- The `Permission` from types.ts: `{name, description, shortName}`. -/
structure Permission where
  name : String
  description : String
  shortName : String
deriving DecidableEq, Repr

/-- The `Role` from types.ts (as attached to a user): id, name, optional
description, permission shortNames. -/
structure Role where
  id : Nat
  name : String
  description : Option String
  permissions : List String
deriving DecidableEq, Repr

/-- The `User` from types.ts. `fields` carries the dynamic tenant field
(`[key: string]: any`), `roles` and `permissions` are the optional arrays. -/
structure User where
  id : Nat
  email : String
  userType : UserType
  fields : List (String × Nat)
  roles : Option (List Role)
  permissions : Option (List String)
deriving DecidableEq, Repr

/-- The `RBACConfig.tenant` from types.ts: the configurable tenant field name. -/
structure TenantConfig where
  field : String
  model : String
deriving DecidableEq, Repr

/-- The `RBACConfig` from types.ts: module-keyed permission lists (a `Record`
iterated in insertion order, hence an ordered association list) plus the
tenant configuration. -/
structure RBACConfig where
  permissions : List (String × List Permission)
  tenant : TenantConfig
deriving DecidableEq, Repr

/-- The `PermissionEngine` holds the config; `allPermissions` below is the
constructor's `Object.values(config.permissions).flat()`. -/
structure PermissionEngine where
  config : RBACConfig
deriving DecidableEq, Repr

namespace PermissionEngine

/-- The `this.allPermissions = Object.values(config.permissions).flat()`. -/
def allPermissions (e : PermissionEngine) : List Permission :=
  (e.config.permissions.map Prod.snd).flatten

/-- The `validatePermission(shortName)`: some catalog permission has that
shortName. -/
def validatePermission (e : PermissionEngine) (shortName : String) : Bool :=
  e.allPermissions.any (fun p => p.shortName == shortName)

/-- The `PermissionValidationResult` from types.ts. -/
structure ValidationResult where
  valid : List String
  invalid : List String
deriving DecidableEq, Repr

/-- The `validatePermissions(shortNames)`: forEach over the input pushing each
entry onto `valid` or `invalid` in input order. -/
def validatePermissions (e : PermissionEngine) :
    List String → ValidationResult
  | [] => ⟨[], []⟩
  | shortName :: rest =>
    let r := validatePermissions e rest
    if e.validatePermission shortName then
      ⟨shortName :: r.valid, r.invalid⟩
    else
      ⟨r.valid, shortName :: r.invalid⟩

/-- The `getAllPermissionShortNames()`. -/
def getAllPermissionShortNames (e : PermissionEngine) : List String :=
  e.allPermissions.map (·.shortName)

/-- JS lookup `user[field]`: `undefined` when the key is absent. -/
def userField (u : User) (field : String) : Option Nat :=
  (u.fields.find? (fun kv => kv.1 == field)).map (·.2)

/-- The `user[this.config.tenant.field]`. -/
def userTenantValue (e : PermissionEngine) (u : User) : Option Nat :=
  userField u e.config.tenant.field

/-- JS falsiness of the optional numeric `tenantId` argument:
`!tenantId` is true for `undefined` and for `0`. -/
def tenantFalsy : Option Nat → Bool
  | none => true
  | some n => n == 0

/-- The `userHasPermission(user, permissionShortName, tenantId?)` from
permission-engine.ts lines 68–91; `user?` is `none` for the `!user` guard. -/
def userHasPermission (e : PermissionEngine) (user? : Option User)
    (permissionShortName : String) (tenantId? : Option Nat) : Bool :=
  match user? with
  | none => false
  | some user =>
    if user.userType = .superadmin then
      true
    else
      let adminBypass :=
        if user.userType = .admin then
          tenantFalsy tenantId? || (userTenantValue e user == tenantId?)
        else
          false
      if adminBypass then
        true
      else
        (user.permissions.getD []).contains permissionShortName

/-- The `userHasAnyPermission`: loop returning true on the first granted
permission, false after exhausting the list. -/
def userHasAnyPermission (e : PermissionEngine) (user? : Option User)
    (permissionShortNames : List String) (tenantId? : Option Nat) : Bool :=
  match permissionShortNames with
  | [] => false
  | p :: rest =>
    if e.userHasPermission user? p tenantId? then true
    else e.userHasAnyPermission user? rest tenantId?

/-- The `userHasAllPermissions`: loop returning false on the first denied
permission, true after exhausting the list. -/
def userHasAllPermissions (e : PermissionEngine) (user? : Option User)
    (permissionShortNames : List String) (tenantId? : Option Nat) : Bool :=
  match permissionShortNames with
  | [] => true
  | p :: rest =>
    if e.userHasPermission user? p tenantId? then
      e.userHasAllPermissions user? rest tenantId?
    else false

/-- The `getUserPermissions(user)` from permission-engine.ts lines 128–143. -/
def getUserPermissions (e : PermissionEngine) (user? : Option User) :
    List String :=
  match user? with
  | none => []
  | some user =>
    if user.userType = .superadmin then
      e.getAllPermissionShortNames
    else if user.userType = .admin then
      e.getAllPermissionShortNames
    else
      user.permissions.getD []

end PermissionEngine

/-!
## Role store and RoleService

role-service.ts delegates persistence to Sequelize models (`RoleModel`,
`UserRoleModel`) that are external to the core. Their operations are
modelled from the spec's repository contract (§6): a roles table keyed by
id with a tenant id column, an assignment table keyed by `(userId, roleId)`.
The dynamic tenant column `[engine.getTenantConfig().field]` is represented
by the explicit `tenantId` column of `StoredRole` (spec §9's `tenantValue`
accessor resolved at configuration time).
-/

/-- A persisted role row: the `Role` of types.ts plus the tenant column the
service writes under the configured tenant field name. -/
structure StoredRole where
  id : Nat
  name : String
  description : Option String
  permissions : List String
  tenantId : Nat
deriving DecidableEq, Repr

/-- A `UserRoleAssignment` row: the `(userId, roleId)` pair. -/
structure Assignment where
  userId : Nat
  roleId : Nat
deriving DecidableEq, Repr

/-- Modelled from the spec: the abstract Role Store (§2, §6) behind the
Sequelize models — a roles table, an assignment table, and the id sequence
used by `insertRole` to assign fresh ids. Rows are kept in insertion order;
`createdAt` order coincides with insertion order. -/
structure Store where
  roles : List StoredRole
  assignments : List Assignment
  nextId : Nat
deriving DecidableEq, Repr

namespace Store

/-- Modelled from the spec: `findRoleByName(tenantId, name)` — the
`RoleModel.findOne({where: {name, [tenantField]: tenantId}})` call. -/
def findRoleByNameTenant (s : Store) (name : String) (tenantId : Nat) :
    Option StoredRole :=
  s.roles.find? (fun r => r.name == name && r.tenantId == tenantId)

/-- Modelled from the spec: `findRoleById(roleId, tenantId)` — the
`RoleModel.findOne({where: {id: roleId, [tenantField]: tenantId}})` call. -/
def findRoleByIdTenant (s : Store) (roleId tenantId : Nat) :
    Option StoredRole :=
  s.roles.find? (fun r => r.id == roleId && r.tenantId == tenantId)

/-- Modelled from the spec: `countAssignmentsForRole(roleId)` — the
`UserRoleModel.count({where: {roleId}})` call (not tenant-scoped). -/
def countAssignmentsForRole (s : Store) (roleId : Nat) : Nat :=
  (s.assignments.filter (fun a => a.roleId == roleId)).length

end Store

/-- The `CreateRoleRequest` from types.ts. -/
structure CreateRoleRequest where
  name : String
  description : Option String
  permissions : List String
deriving DecidableEq, Repr

namespace RoleService

open PermissionEngine Store

/-- The `RoleService.createRole(data, tenantId, createdBy)`, role-service.ts
lines 21–54: validate permissions (reject listing the invalid ones),
check tenant-scoped name uniqueness, then insert. An `Except.error` result
leaves the caller's store untouched (no write precedes a throw). -/
def createRole (e : PermissionEngine) (s : Store) (data : CreateRoleRequest)
    (tenantId : Nat) : Except String (StoredRole × Store) :=
  let vr := e.validatePermissions data.permissions
  if vr.invalid.length > 0 then
    .error ("Invalid permissions: " ++ String.intercalate ", " vr.invalid)
  else
    match s.findRoleByNameTenant data.name tenantId with
    | some _ => .error "Role with this name already exists for this tenant"
    | none =>
      let role : StoredRole :=
        ⟨s.nextId, data.name, data.description, vr.valid, tenantId⟩
      .ok (role, { s with roles := s.roles ++ [role], nextId := s.nextId + 1 })

/-- The `RoleService.getRolesByTenant(tenantId)`, lines 59–68: all roles of the
tenant ordered `createdAt DESC` (newest insertion first). -/
def getRolesByTenant (s : Store) (tenantId : Nat) : List StoredRole :=
  (s.roles.filter (fun r => r.tenantId == tenantId)).reverse

/-- The `RoleService.getRoleById(roleId, tenantId)`, lines 73–82: tenant-scoped
lookup, `null` when absent. -/
def getRoleById (s : Store) (roleId tenantId : Nat) : Option StoredRole :=
  s.findRoleByIdTenant roleId tenantId

/-- The `RoleService.deleteRole(roleId, tenantId, deletedBy)`, lines 140–162:
not-found if absent in the tenant, conflict if any assignment references the
role, otherwise destroy the row. -/
def deleteRole (s : Store) (roleId tenantId : Nat) : Except String Store :=
  match s.findRoleByIdTenant roleId tenantId with
  | none => .error "Role not found"
  | some _ =>
    if s.countAssignmentsForRole roleId > 0 then
      .error "Cannot delete role that is assigned to users"
    else
      .ok { s with roles := s.roles.filter (fun r => !(r.id == roleId)) }

/-- The `RoleService.assignRoleToUser(userId, roleId, tenantId, assignedBy)`,
lines 167–196. -/
def assignRoleToUser (s : Store) (userId roleId tenantId : Nat) :
    Except String Store :=
  match s.findRoleByIdTenant roleId tenantId with
  | none => .error "Role not found"
  | some _ =>
    match s.assignments.find?
        (fun a => a.userId == userId && a.roleId == roleId) with
    | some _ => .error "User already has this role"
    | none => .ok { s with assignments := s.assignments ++ [⟨userId, roleId⟩] }

/-- The `RoleService.removeRoleFromUser(userId, roleId, tenantId, removedBy)`,
lines 201–227: tenant-scoped role lookup, then
`UserRoleModel.destroy({where: {userId, roleId}})`; throws "does not have"
when the destroy removed nothing. -/
def removeRoleFromUser (s : Store) (userId roleId tenantId : Nat) :
    Except String Store :=
  match s.findRoleByIdTenant roleId tenantId with
  | none => .error "Role not found"
  | some _ =>
    let matching :=
      s.assignments.filter (fun a => a.userId == userId && a.roleId == roleId)
    if matching.length == 0 then
      .error "User does not have this role"
    else
      let remaining :=
        s.assignments.filter
          (fun a => !(a.userId == userId && a.roleId == roleId))
      .ok { s with assignments := remaining }

end RoleService

/-! ## Shared helper lemmas -/

theorem validatePermissions_valid (e : PermissionEngine) (names : List String) :
    (e.validatePermissions names).valid =
      names.filter (fun s => e.validatePermission s) := by
  induction names with
  | nil => rfl
  | cons n rest ih =>
    cases h : e.validatePermission n with
    | true => simp [PermissionEngine.validatePermissions, h, ih]
    | false => simp [PermissionEngine.validatePermissions, h, ih]

theorem validatePermissions_invalid (e : PermissionEngine)
    (names : List String) :
    (e.validatePermissions names).invalid =
      names.filter (fun s => !(e.validatePermission s)) := by
  induction names with
  | nil => rfl
  | cons n rest ih =>
    cases h : e.validatePermission n with
    | true => simp [PermissionEngine.validatePermissions, h, ih]
    | false => simp [PermissionEngine.validatePermissions, h, ih]

/-! ## Concrete data for witnesses and counterexamples -/

/-- A small concrete catalog: one module with two permissions, tenant field
`shopId`. -/
def sampleConfig : RBACConfig :=
  ⟨[("orders", [⟨"View Orders", "Can view orders", "orders.view"⟩,
                ⟨"Edit Orders", "Can edit orders", "orders.edit"⟩])],
   ⟨"shopId", "Shop"⟩⟩

def sampleEngine : PermissionEngine := ⟨sampleConfig⟩

def sampleSuper : User :=
  ⟨1, "s@example.com", .superadmin, [("shopId", 1)], none, none⟩

/-- An admin of shop 1 who also carries `orders.view` in its own
`permissions` array. -/
def sampleAdmin : User :=
  ⟨2, "a@example.com", .admin, [("shopId", 1)], none, some ["orders.view"]⟩

/-- A plain user with an empty `permissions` array but a role granting
`orders.view`. -/
def samplePlain : User :=
  ⟨3, "u@example.com", .user, [("shopId", 1)],
   some [⟨5, "Viewer", none, ["orders.view"]⟩], some []⟩

def emptyStore : Store := ⟨[], [], 1⟩

/-! ## Claims -/

/-- C1, counterexample: the claim says `decide(user, p, T')` is false for an
admin of tenant `T = 1` whenever an explicit `T' = 2 ≠ T` is supplied, for
every permission `p`. But after the admin bypass fails, lines 89–90 fall
through to the user's own `permissions` array: `sampleAdmin` carries
`orders.view` there, so the call returns true. -/
theorem C1_counterexample :
    sampleAdmin.userType = .admin ∧
    sampleEngine.userTenantValue sampleAdmin = some 1 ∧
    (2 : Nat) ≠ 1 ∧
    sampleEngine.userHasPermission (some sampleAdmin) "orders.view"
      (some 2) = true := by
  refine ⟨rfl, by decide, by decide, by decide⟩

/-- C1, amended: for an admin of tenant `T`, `decide(user, p, T) = true` and
`decide(user, p, undefined) = true`; with an explicit non-zero `T' ≠ T` the
admin bypass does not fire and the decision falls through to membership of
`p` in the user's own `permissions` array (so it is false exactly when the
admin holds no such direct permission). -/
theorem C1_admin_tenant_scope (e : PermissionEngine) (u : User) (p : String)
    (T T' : Nat) (hadmin : u.userType = .admin)
    (hT : e.userTenantValue u = some T) (hne : T' ≠ T) (hnz : T' ≠ 0) :
    e.userHasPermission (some u) p (some T) = true ∧
    e.userHasPermission (some u) p none = true ∧
    e.userHasPermission (some u) p (some T') =
      (u.permissions.getD []).contains p := by
  refine ⟨?_, ?_, ?_⟩ <;>
    simp [PermissionEngine.userHasPermission, hadmin, hT,
      PermissionEngine.tenantFalsy, hne, hne.symm, hnz]

/-- C1 witness: the amended theorem applied to `sampleAdmin` (tenant 1,
foreign tenant 2): access in its own tenant and with no tenant given, and
the foreign-tenant outcome is exactly a lookup in its own permission list. -/
theorem C1_witness :
    sampleEngine.userHasPermission (some sampleAdmin) "orders.edit"
      (some 1) = true ∧
    sampleEngine.userHasPermission (some sampleAdmin) "orders.edit"
      none = true ∧
    sampleEngine.userHasPermission (some sampleAdmin) "orders.edit"
      (some 2) = (sampleAdmin.permissions.getD []).contains "orders.edit" :=
  C1_admin_tenant_scope sampleEngine sampleAdmin "orders.edit" 1 2
    rfl (by decide) (by decide) (by decide)

/-- C2, counterexample: the claim says a plain user's effective permissions
are the union of `directPermissions` and the permissions of every role in
`user.roles`. `samplePlain` has an empty `permissions` array but a role
granting `orders.view`; `getUserPermissions` (lines 141–142) returns only
`user.permissions || []`, so the role-granted `orders.view` is missing. -/
theorem C2_counterexample :
    samplePlain.userType = .user ∧
    (∃ r ∈ samplePlain.roles.getD [], "orders.view" ∈ r.permissions) ∧
    "orders.view" ∉ sampleEngine.getUserPermissions (some samplePlain) := by
  refine ⟨rfl, ⟨⟨5, "Viewer", none, ["orders.view"]⟩, by decide, by decide⟩,
    by decide⟩

/-- C2, amended: superadmin and admin get the full catalog; a plain user
gets exactly `user.permissions || []` (the `directPermissions` array alone —
`user.roles` is never consulted by `getUserPermissions`). -/
theorem C2_effective_permissions (e : PermissionEngine) (u : User) :
    ((u.userType = .superadmin ∨ u.userType = .admin) →
      e.getUserPermissions (some u) = e.getAllPermissionShortNames) ∧
    (u.userType = .user →
      e.getUserPermissions (some u) = u.permissions.getD []) := by
  constructor
  · rintro (h | h) <;> simp [PermissionEngine.getUserPermissions, h]
  · intro h
    simp [PermissionEngine.getUserPermissions, h]

/-- C2 witness: the amended theorem at `sampleAdmin` (full catalog) and at
`samplePlain` (its own `permissions` array, here empty). -/
theorem C2_witness :
    sampleEngine.getUserPermissions (some sampleAdmin) =
      ["orders.view", "orders.edit"] ∧
    sampleEngine.getUserPermissions (some samplePlain) = [] := by
  constructor
  · have h := (C2_effective_permissions sampleEngine sampleAdmin).1
      (Or.inr rfl)
    exact h.trans (by decide)
  · have h := (C2_effective_permissions sampleEngine samplePlain).2 rfl
    exact h.trans (by decide)

/-- C3, counterexample: the claim says duplicate input items collapse, each
distinct shortName appearing at most once across the outputs. With the
duplicate input `["orders.view", "orders.view"]`, the forEach pushes both
occurrences, so `valid` holds `orders.view` twice. -/
theorem C3_counterexample :
    (sampleEngine.validatePermissions
      ["orders.view", "orders.view"]).valid.count "orders.view" = 2 ∧
    (sampleEngine.validatePermissions
      ["orders.view", "orders.view"]).invalid = [] := by
  refine ⟨by decide, by decide⟩

/-- C3, amended: `validatePermissions` partitions the input
deterministically, every input occurrence (duplicates preserved, not
collapsed) appearing in exactly one of the two outputs, in input order: an
occurrence lands in `valid` iff `validatePermission` holds for it. Stated as:
the outputs are exactly the input filtered by the validity test and by its
negation. -/
theorem C3_validate_many_partition (e : PermissionEngine)
    (shortNames : List String) :
    (e.validatePermissions shortNames).valid =
      shortNames.filter (fun s => e.validatePermission s) ∧
    (e.validatePermissions shortNames).invalid =
      shortNames.filter (fun s => !(e.validatePermission s)) :=
  ⟨validatePermissions_valid e shortNames,
   validatePermissions_invalid e shortNames⟩

/-- C4: a superadmin passes every permission check, for any permission
identifier (in the catalog or not) and any tenant argument. -/
theorem C4_superadmin_bypass (e : PermissionEngine) (u : User) (p : String)
    (tenantId? : Option Nat) (h : u.userType = .superadmin) :
    e.userHasPermission (some u) p tenantId? = true := by
  simp [PermissionEngine.userHasPermission, h]

/-- C4 witness: `sampleSuper` passes a check for an identifier outside the
catalog under an arbitrary explicit tenant. -/
theorem C4_witness :
    sampleEngine.userHasPermission (some sampleSuper) "not.in.catalog"
      (some 7) = true :=
  C4_superadmin_bypass sampleEngine sampleSuper "not.in.catalog" (some 7) rfl

/-- C9: on an empty permission list, `userHasAnyPermission` is false and
`userHasAllPermissions` is true, for every user argument (present or
absent, any userType) and every tenant argument; both are total functions,
so neither raises. -/
theorem C9_empty_lists (e : PermissionEngine) (user? : Option User)
    (tenantId? : Option Nat) :
    e.userHasAnyPermission user? [] tenantId? = false ∧
    e.userHasAllPermissions user? [] tenantId? = true :=
  ⟨rfl, rfl⟩

/-- C10: the admin branch (line 83) tests `!tenantId`, so an explicit
tenant id `0` is falsy and treated as "no tenant constraint": every admin
passes every check at tenant 0, whatever its own tenant-field value. -/
theorem C10_admin_zero_tenant (e : PermissionEngine) (u : User) (p : String)
    (h : u.userType = .admin) :
    e.userHasPermission (some u) p (some 0) = true := by
  simp [PermissionEngine.userHasPermission, h, PermissionEngine.tenantFalsy]

/-- C10 witness: `sampleAdmin` (its own tenant field is 1, not 0) passes a
check for a permission it does not hold when tenant 0 is supplied. -/
theorem C10_witness :
    sampleEngine.userHasPermission (some sampleAdmin) "orders.edit"
      (some 0) = true :=
  C10_admin_zero_tenant sampleEngine sampleAdmin "orders.edit" rfl

/-- C5: when `data.permissions` contains at least one shortName not in the
catalog, `createRole` fails with the invalid-permissions error listing
exactly the invalid identifiers (the input entries failing
`validatePermission`, in input order), and — validation preceding every
store access — no role is persisted: the error result carries no store, so
the caller's store is unchanged. -/
theorem C5_create_role_invalid_permissions (e : PermissionEngine) (s : Store)
    (data : CreateRoleRequest) (tenantId : Nat)
    (h : ∃ p ∈ data.permissions, e.validatePermission p = false) :
    RoleService.createRole e s data tenantId =
      .error ("Invalid permissions: " ++ String.intercalate ", "
        (data.permissions.filter (fun q => !(e.validatePermission q)))) := by
  obtain ⟨p, hp, hpf⟩ := h
  have hmem : p ∈ data.permissions.filter
      (fun q => !(e.validatePermission q)) :=
    List.mem_filter.mpr ⟨hp, by simp [hpf]⟩
  have hlen : 0 < (e.validatePermissions data.permissions).invalid.length := by
    rw [validatePermissions_invalid]
    exact List.length_pos.mpr (List.ne_nil_of_mem hmem)
  simp only [RoleService.createRole]
  rw [if_pos hlen, validatePermissions_invalid]

/-- C5 witness: creating a role with the unknown permission
`bogus.permission` fails with exactly that identifier listed, on the empty
store. -/
theorem C5_witness :
    RoleService.createRole sampleEngine emptyStore
      ⟨"X", none, ["bogus.permission"]⟩ 1 =
      .error "Invalid permissions: bogus.permission" := by
  have h := C5_create_role_invalid_permissions sampleEngine emptyStore
    ⟨"X", none, ["bogus.permission"]⟩ 1
    ⟨"bogus.permission", by decide, by decide⟩
  exact h.trans (by rfl)

/-- A concrete persisted role for the service witnesses: id 1, name
`Manager`, tenant 1. -/
def managerRole : StoredRole := ⟨1, "Manager", none, ["orders.view"], 1⟩

/-- C6: tenant-scoped name uniqueness of `createRole`. If some role with
the requested name already exists in tenant `T`, the call fails with the
duplicate-name error (and, the error result carrying no store, nothing is
persisted); with the same request data under a tenant `T2` holding no role
of that name, the call succeeds. -/
theorem C6_duplicate_name_tenant_scoped (e : PermissionEngine) (s : Store)
    (data : CreateRoleRequest) (T T2 : Nat)
    (hdup : ∃ r0 ∈ s.roles, r0.name = data.name ∧ r0.tenantId = T)
    (hvalid : ∀ p ∈ data.permissions, e.validatePermission p = true)
    (hfresh : s.findRoleByNameTenant data.name T2 = none) :
    RoleService.createRole e s data T =
      .error "Role with this name already exists for this tenant" ∧
    ∃ r2 s2, RoleService.createRole e s data T2 = .ok (r2, s2) := by
  have hinv : (e.validatePermissions data.permissions).invalid = [] := by
    rw [validatePermissions_invalid]
    exact List.filter_eq_nil_iff.mpr (fun a ha => by simp [hvalid a ha])
  have hlen : ¬ (e.validatePermissions data.permissions).invalid.length > 0 :=
    by simp [hinv]
  obtain ⟨r0, hr0mem, hr0n, hr0t⟩ := hdup
  have hsome : (s.findRoleByNameTenant data.name T).isSome := by
    unfold Store.findRoleByNameTenant
    rw [List.find?_isSome]
    exact ⟨r0, hr0mem, by simp [hr0n, hr0t]⟩
  obtain ⟨r1, hr1⟩ := Option.isSome_iff_exists.mp hsome
  constructor
  · simp only [RoleService.createRole]
    rw [if_neg hlen, hr1]
  · simp only [RoleService.createRole]
    rw [if_neg hlen, hfresh]
    exact ⟨_, _, rfl⟩

/-- C6 witness: with `Manager` already stored under tenant 1, creating
`Manager` again in tenant 1 fails with the duplicate-name error while the
same request under tenant 2 succeeds. -/
theorem C6_witness :
    RoleService.createRole sampleEngine ⟨[managerRole], [], 2⟩
      ⟨"Manager", none, ["orders.view"]⟩ 1 =
      .error "Role with this name already exists for this tenant" ∧
    ∃ r2 s2, RoleService.createRole sampleEngine ⟨[managerRole], [], 2⟩
      ⟨"Manager", none, ["orders.view"]⟩ 2 = .ok (r2, s2) :=
  C6_duplicate_name_tenant_scoped sampleEngine ⟨[managerRole], [], 2⟩
    ⟨"Manager", none, ["orders.view"]⟩ 1 2
    ⟨managerRole, by decide, by decide, by decide⟩
    (by decide) (by decide)

/-- C7: `deleteRole` fails with "Role not found" when the role is absent
from the given tenant; fails with the in-use conflict when any assignment
references the role (the error result carrying no store, role and
assignments are unchanged); succeeds when no assignment references it. And
after `removeRoleFromUser` removes the last assignment of the role (every
assignment of role `R` belonging to user `U`), `deleteRole` succeeds. -/
theorem C7_delete_role (s : Store) (R T U : Nat) :
    (s.findRoleByIdTenant R T = none →
      RoleService.deleteRole s R T = .error "Role not found") ∧
    (s.findRoleByIdTenant R T ≠ none → 0 < s.countAssignmentsForRole R →
      RoleService.deleteRole s R T =
        .error "Cannot delete role that is assigned to users") ∧
    (s.findRoleByIdTenant R T ≠ none → s.countAssignmentsForRole R = 0 →
      ∃ s2, RoleService.deleteRole s R T = .ok s2) ∧
    (∀ s2, RoleService.removeRoleFromUser s U R T = .ok s2 →
      (∀ a ∈ s.assignments, a.roleId = R → a.userId = U) →
      ∃ s3, RoleService.deleteRole s2 R T = .ok s3) := by
  refine ⟨?_, ?_, ?_, ?_⟩
  · intro hnone
    simp only [RoleService.deleteRole]
    rw [hnone]
  · intro hsome hcnt
    obtain ⟨r1, hr1⟩ := Option.ne_none_iff_exists.mp hsome
    simp only [RoleService.deleteRole]
    rw [← hr1, if_pos hcnt]
  · intro hsome hcnt
    obtain ⟨r1, hr1⟩ := Option.ne_none_iff_exists.mp hsome
    simp only [RoleService.deleteRole]
    rw [← hr1, if_neg (by simp [hcnt])]
    exact ⟨_, rfl⟩
  · intro s2 hok hall
    simp only [RoleService.removeRoleFromUser] at hok
    cases hfind : s.findRoleByIdTenant R T with
    | none =>
      rw [hfind] at hok
      exact absurd hok (by simp)
    | some r1 =>
      rw [hfind] at hok
      by_cases hempty : (s.assignments.filter (fun a => a.userId == U && a.roleId == R)).length = 0
      · rw [if_pos (by simpa using hempty)] at hok
        exact absurd hok (by simp)
      · rw [if_neg (by simpa using hempty)] at hok
        have hs2 : ({ s with assignments := s.assignments.filter (fun a => !(a.userId == U && a.roleId == R)) } : Store) = s2 :=
          Except.ok.inj hok
        subst hs2
        have hcnt2 : Store.countAssignmentsForRole { s with assignments := s.assignments.filter (fun a => !(a.userId == U && a.roleId == R)) } R = 0 := by
          unfold Store.countAssignmentsForRole
          rw [List.length_eq_zero, List.filter_eq_nil_iff]
          intro a ha haR
          obtain ⟨hmem, hkeep⟩ := List.mem_filter.mp ha
          have haR' : a.roleId = R := by simpa using haR
          have hU : a.userId = U := hall a hmem haR'
          simp [hU, haR'] at hkeep
        have hfind2 : Store.findRoleByIdTenant { s with assignments := s.assignments.filter (fun a => !(a.userId == U && a.roleId == R)) } R T = some r1 := hfind
        simp only [RoleService.deleteRole]
        rw [hfind2, if_neg (by rw [hcnt2]; simp)]
        exact ⟨_, rfl⟩

/-- C7 witness: with role 1 (`Manager`, tenant 1) assigned to user 7,
deletion fails with the in-use conflict; applying the last conjunct after
`removeRoleFromUser` strips that last assignment, deletion succeeds. -/
theorem C7_witness :
    RoleService.deleteRole ⟨[managerRole], [⟨7, 1⟩], 2⟩ 1 1 =
      .error "Cannot delete role that is assigned to users" ∧
    ∃ s3, RoleService.deleteRole ⟨[managerRole], [], 2⟩ 1 1 = .ok s3 := by
  constructor
  · exact (C7_delete_role ⟨[managerRole], [⟨7, 1⟩], 2⟩ 1 1 7).2.1
      (by decide) (by decide)
  · exact (C7_delete_role ⟨[managerRole], [⟨7, 1⟩], 2⟩ 1 1 7).2.2.2
      ⟨[managerRole], [], 2⟩ (by rfl) (by decide)

/-- C8: cross-tenant isolation of role lookups. Whenever no role of the
store has both the looked-up id and tenant `T2` — which covers a role of
that id existing under a different tenant `T1 ≠ T2` just as it covers a
wholly non-existent id — `getRoleById` returns `none` (the two situations
are indistinguishable), and no role of that id appears in
`getRolesByTenant T2`. -/
theorem C8_cross_tenant_isolation (s : Store) (rid T2 : Nat)
    (h : ∀ r ∈ s.roles, r.id = rid → r.tenantId ≠ T2) :
    RoleService.getRoleById s rid T2 = none ∧
    ∀ r ∈ RoleService.getRolesByTenant s T2, r.id ≠ rid := by
  constructor
  · simp only [RoleService.getRoleById]
    unfold Store.findRoleByIdTenant
    rw [List.find?_eq_none]
    intro r hr
    simpa using h r hr
  · intro r hr hid
    simp only [RoleService.getRolesByTenant] at hr
    rw [List.mem_reverse] at hr
    obtain ⟨hmem, hten⟩ := List.mem_filter.mp hr
    exact h r hmem hid (by simpa using hten)

/-- C8 witness: role 1 lives under tenant 1; looking it up under tenant 2
yields `none`, identically to the non-existent id 99, and tenant 2's role
list contains no role with id 1. -/
theorem C8_witness :
    RoleService.getRoleById ⟨[managerRole], [], 2⟩ 1 2 = none ∧
    RoleService.getRoleById ⟨[managerRole], [], 2⟩ 99 2 = none ∧
    ∀ r ∈ RoleService.getRolesByTenant ⟨[managerRole], [], 2⟩ 2, r.id ≠ 1 := by
  refine ⟨(C8_cross_tenant_isolation ⟨[managerRole], [], 2⟩ 1 2 ?_).1,
    (C8_cross_tenant_isolation ⟨[managerRole], [], 2⟩ 99 2 ?_).1,
    (C8_cross_tenant_isolation ⟨[managerRole], [], 2⟩ 1 2 ?_).2⟩ <;> decide
